import Mathlib

/-!
Shallow embedding of the DeepSaber dataset-construction pipeline
(`src/process/api.py`, configuration defaults from `src/utils/types.py`).

Modelling conventions:
* pandas scalar cells are modelled by `Val`: a finite rational or one of the
  IEEE non-finite markers (`inf`, `-inf`, `nan`).  Exact rationals stand in for
  floating-point numbers; the claims under study are about exact structural
  relations (which column gets which affine map, which split gets which slice),
  not about rounding.
* A DataFrame is a list of named columns, `Table := List (String × List Val)`.
* `np.sqrt` (used inside `np.std`) has no exact rational counterpart, so the
  pipeline is parameterised by an arbitrary square-root function
  `sqrtFn : ℚ → ℚ`; theorems that need the defining property of the square
  root take it as a hypothesis at the concrete column involved.
* `process_song_folder`, `pd.concat`, `generate_snippets` and
  `add_previous_prediction` live in `process/compute.py`, which is not part of
  the sources under study; `generate_datasets` is therefore parameterised by
  an extraction function `extract : String → Option Table` (per-song
  extraction, `None` = failure) and an assembly function
  `assemble : List Table → Table` (concatenation + downstream per-table
  post-processing).  No claim depends on their internals.
-/

namespace DeepSaber

/-- A pandas scalar cell: a finite rational or an IEEE non-finite marker. -/
inductive Val where
  | num (q : ℚ)
  | inf
  | ninf
  | nan
deriving DecidableEq

/-- `math.isfinite` on a scalar cell. -/
def Val.isFinite : Val → Bool
  | .num _ => true
  | .inf => false
  | .ninf => false
  | .nan => false

/-- Read a finite cell back as a rational (non-finite cells are junk-mapped
to 0; every use below coerces non-finite cells away first). -/
def Val.toRat : Val → ℚ
  | .num q => q
  | .inf => 0
  | .ninf => 0
  | .nan => 0

/-- Embedding of `infinite2zero` (api.py lines 98-104), scalar branch:
`if not math.isfinite(x): return 0.0; return x`.  (The numpy-array branch
performs the same replacement elementwise; columns are modelled cellwise, so
`List.map infinite2zero` plays that role.) -/
def infinite2zero (x : Val) : Val :=
  if x.isFinite then x else .num 0

/-! ## Song discovery (`create_song_list`, api.py lines 18-25) -/

/-- One `os.walk` entry: a directory and the files directly inside it. -/
structure DirEntry where
  root : String
  files : List String
deriving DecidableEq

/-- Embedding of `create_song_list`: keep every walked directory whose files,
lower-cased, meet `{info.dat, info.json}`. -/
def create_song_list (walk : List DirEntry) : List String :=
  (walk.filter (fun e =>
      e.files.any (fun name =>
        name.toLower == "info.dat" || name.toLower == "info.json"))).map
    (fun e => e.root)

/-! ## Claims C2 and C10 -/

/-- C2: for every directory tree, `create_song_list` returns exactly those
folders that directly contain a file whose case-insensitive name is
`info.dat` or `info.json`, and no other folders. -/
theorem create_song_list_exact (walk : List DirEntry) (s : String) :
    s ∈ create_song_list walk ↔
      ∃ e ∈ walk, e.root = s ∧
        ∃ f ∈ e.files, f.toLower = "info.dat" ∨ f.toLower = "info.json" := by
  simp only [create_song_list, List.mem_map, List.mem_filter, List.any_eq_true,
    Bool.or_eq_true, beq_iff_eq]
  constructor
  · rintro ⟨e, ⟨hmem, f, hf, hind⟩, hroot⟩
    exact ⟨e, hmem, hroot, f, hf, hind⟩
  · rintro ⟨e, hmem, hroot, f, hf, hind⟩
    exact ⟨e, ⟨hmem, f, hf, hind⟩, hroot⟩

/-- C10: `infinite2zero` always returns a finite scalar, is idempotent, is the
identity on finite scalars and maps every non-finite scalar to 0. -/
theorem infinite2zero_spec (x : Val) :
    (infinite2zero x).isFinite = true ∧
    infinite2zero (infinite2zero x) = infinite2zero x ∧
    infinite2zero x = (if x.isFinite then x else Val.num 0) := by
  cases x <;> simp [infinite2zero, Val.isFinite]

/-! ## Tables and the normalization engine
(`save_normalization_stats` / `normalize_columns`, api.py lines 139-155) -/

/-- A DataFrame: a list of named columns. -/
abbrev Table := List (String × List Val)

/-- `df[c]`: the first column named `c`, if any. -/
def lookupCol (df : Table) (c : String) : Option (List Val) :=
  (df.find? (fun p => p.1 == c)).map (fun p => p.2)

/-- The in-place loop `for col in regression_cols: df[col] =
df[col].apply(infinite2zero)` (api.py lines 141-142). -/
def coerceCols (df : Table) (cols : List String) : Table :=
  df.map (fun p => if p.1 ∈ cols then (p.1, p.2.map infinite2zero) else p)

/-- The rationals of column `c` of `df` (`np.stack(df[col].values)`; the
column is assumed present, as `df[col]` does in pandas). -/
def colRats (df : Table) (c : String) : List ℚ :=
  ((lookupCol df c).getD []).map Val.toRat

/-- `np.mean` over a column. -/
def qmean (l : List ℚ) : ℚ := l.sum / l.length

/-- `np.std ^ 2`: the population variance (mean of squared deviations,
denominator `n`, not `n - 1`). -/
def qvar (l : List ℚ) : ℚ := qmean (l.map (fun x => (x - qmean l) ^ 2))

/-- The persisted `col_stats.pkl` artifact: per column `(mean, std)`. -/
abbrev Stats := List (String × ℚ × ℚ)

/-- Embedding of `save_normalization_stats` (api.py lines 139-146): coerce the
configured columns in place, then record per-column mean and population
standard deviation (`sqrtFn` models `np.sqrt`, so `np.std = sqrtFn ∘ qvar`).
Returns the mutated DataFrame together with the persisted stats. -/
def save_normalization_stats (df : Table) (cols : List String) (sqrtFn : ℚ → ℚ) :
    Table × Stats :=
  let dfc := coerceCols df cols
  (dfc, cols.map (fun c => (c, qmean (colRats dfc c), sqrtFn (qvar (colRats dfc c)))))

/-- The fixed `1e-6` of `normalize_columns` (api.py line 153). -/
def epsilon : ℚ := 1 / 1000000

/-- The elementwise map `lambda x: (x - mean) / (std + 1e-6)` of
`normalize_columns`.  Non-finite cells stay non-finite (`std + 1e-6 > 0` for
every std the program produces, so no sign flip arises). -/
def valAffine (m s : ℚ) : Val → Val
  | .num q => .num ((q - m) / (s + epsilon))
  | .inf => .inf
  | .ninf => .ninf
  | .nan => .nan

/-- `stats['mean'][c]` and `stats['std'][c]` combined: the stats entry for
column `c`; `none` models the `KeyError` pandas raises on a missing key. -/
def statLookup (stats : Stats) (c : String) : Option (ℚ × ℚ) :=
  (stats.find? (fun p => p.1 == c)).map (fun p => p.2)

/-- One column of the `normalize_columns` loop: a column of the table that is
also in `cols_to_normalize` gets the affine map with its persisted mean/std
(a missing stats entry is the `KeyError` case, `none`); every other column
passes through unchanged. -/
def normCell (stats : Stats) (cols : List String) (p : String × List Val) :
    Option (String × List Val) :=
  if p.1 ∈ cols then
    match statLookup stats p.1 with
    | some ms => some (p.1, p.2.map (valAffine ms.1 ms.2))
    | none => none
  else some p

/-- Embedding of `normalize_columns` (api.py lines 149-155): apply `normCell`
to every column; a raised `KeyError` aborts the whole call (`none`). -/
def normalize_columns (df : Table) (stats : Stats) (cols : List String) :
    Option Table :=
  match df with
  | [] => some []
  | p :: rest =>
      match normCell stats cols p, normalize_columns rest stats cols with
      | some q, some qs => some (q :: qs)
      | _, _ => none

/-! ## Dataset assembly and the split loop
(`songs2dataset` / `generate_datasets`, api.py lines 41-75 and 107-136) -/

/-- The warning logged by `songs2dataset` when every extraction failed. -/
def emptySongsWarning : String := "Dataset creation collected 0 songs."

/-- Embedding of `songs2dataset` (api.py lines 41-75): run per-song extraction
over the folders, drop the failures, and if nothing survives warn and return
`none`; otherwise hand the surviving tables to `assemble` (which stands for
`pd.concat` + `df_post_processing` + snippet generation, code outside the
sources under study).  Returns the optional table with the warnings logged. -/
def songs2dataset (extract : String → Option Table) (assemble : List Table → Table)
    (folders : List String) : Option Table × List String :=
  let songs := (folders.map extract).filterMap id
  if songs.length = 0 then (none, [emptySongsWarning])
  else (some (assemble songs), [])

/-- Python `int()` on a rational: truncation toward zero. -/
def pyInt (q : ℚ) : ℤ := if 0 ≤ q then ⌊q⌋ else -⌊-q⌋

/-- Python `l[a:b]` for non-negative bounds. -/
def pySlice (l : List α) (a b : ℕ) : List α := (l.take b).drop a

/-- `int(total * frac)` (api.py lines 116-117), as a list index. -/
def splitBound (songs : List String) (q : ℚ) : ℕ :=
  (pyInt ((songs.length : ℚ) * q)).toNat

/-- The phase names of the split loop. -/
def phaseNames : List String := ["train", "val", "test"]

/-- The slices of the `generate_datasets` loop:
`zip(['train','val','test'], zip(data_split, data_split[1:]))` with
`song_folders[int(total*lo):int(total*hi)]` per phase (api.py lines 109-120). -/
def splitSlices (songs : List String) (split : List ℚ) : List (String × List String) :=
  (phaseNames.zip (split.zip split.tail)).map (fun p =>
    (p.1, pySlice songs (splitBound songs p.2.1) (splitBound songs p.2.2)))

/-- The default `TrainingConfig.data_split = (0.0, 0.8, 0.9, 0.99)`
(types.py line 105). -/
def defaultDataSplit : List ℚ := [0, 4 / 5, 9 / 10, 99 / 100]

/-- The observable state of one `generate_datasets` run: the on-disk
normalization-stats file, the pickled split tables, the warnings logged so
far, and the first uncaught exception (which aborts the remaining phases). -/
structure RunState where
  statsFile : Option Stats
  outputs : List (String × Table)
  warnings : List String
  error : Option String
deriving DecidableEq

/-- The state at the start of a run: `stats0` is whatever
`col_stats.pkl` already holds on disk (`none` = no such file). -/
def initState (stats0 : Option Stats) : RunState :=
  { statsFile := stats0, outputs := [], warnings := [], error := none }

/-- One iteration of the `generate_datasets` loop (api.py lines 113-136) on
the already-computed `songs2dataset` result `dfw`.  A `none` table skips the
phase with a warning; the train phase fits and persists the stats before any
normalization; `normalize_columns` reads the stats file, raising
`FileNotFoundError` when it does not exist and `KeyError` when it lacks a
required column; an earlier uncaught exception short-circuits the phase. -/
def processPhase (sqrtFn : ℚ → ℚ) (cols : List String)
    (dfw : Option Table × List String) (phase : String) (st : RunState) :
    RunState :=
  if st.error.isSome then st else
  let stw : RunState := { st with warnings := st.warnings ++ dfw.2 }
  match dfw.1 with
  | none =>
      { stw with warnings :=
          stw.warnings ++ ["Skipped " ++ phase ++ " dataset. No songs."] }
  | some df =>
      let fitted : Table × Option Stats :=
        if phase = "train" then
          let p := save_normalization_stats df cols sqrtFn
          (p.1, some p.2)
        else (df, stw.statsFile)
      let stf : RunState := { stw with statsFile := fitted.2 }
      match fitted.2 with
      | none => { stf with error := some "FileNotFoundError: col_stats.pkl" }
      | some stats =>
          match normalize_columns fitted.1 stats cols with
          | none => { stf with error := some "KeyError" }
          | some dfn => { stf with outputs := stf.outputs ++ [(phase, dfn)] }

/-- Embedding of `generate_datasets` (api.py lines 107-136): fold the phase
step over the three split slices. -/
def generate_datasets (extract : String → Option Table)
    (assemble : List Table → Table) (sqrtFn : ℚ → ℚ)
    (song_folders : List String) (split : List ℚ) (cols : List String)
    (stats0 : Option Stats) : RunState :=
  (splitSlices song_folders split).foldl
    (fun st p => processPhase sqrtFn cols (songs2dataset extract assemble p.2) p.1 st)
    (initState stats0)

/-! ## Action-word post-processing (`df_post_processing`, api.py lines 78-95) -/

/-- A gensim `KeyedVectors` model (FastText): an ordered vocabulary plus a
total vector lookup (FastText composes vectors for out-of-vocabulary words
from subword n-grams, so the lookup never fails). -/
structure WordModel where
  vocab : List String
  vec : String → List ℚ

/-- Helper for `create_word_mapping`: assign ids `i+2, i+3, ...` to the words
of the list, `i` the index offset. -/
def createMapFrom (i : ℕ) : List String → List (String × ℕ)
  | [] => []
  | w :: ws => (w, i + 2) :: createMapFrom (i + 1) ws

/-- Modelled from the spec: `create_word_mapping` lives in
`utils/functions.py`, which is not among the sources under study.  Per the
spec (§4.5 step 4) and the comment at api.py line 86, ids 0 (MASK) and 1
(UNK) are reserved, so vocabulary words receive ids from 2 upward in
vocabulary order. -/
def create_word_mapping (m : WordModel) : List (String × ℕ) :=
  createMapFrom 0 m.vocab

/-- `word_id_dict.get(word, 1)` (api.py line 86): dictionary lookup with the
UNK id 1 as default. -/
def wordIdLookup (d : List (String × ℕ)) (w : String) : ℕ :=
  ((d.find? (fun p => p.1 == w)).map (fun p => p.2)).getD 1

/-- A cell of the `word_vec` / `word_id` columns: the scalar `0` written by
the degraded branch, or an embedding vector. -/
inductive PCell where
  | pnum (q : ℚ)
  | pvec (v : List ℚ)
deriving DecidableEq

/-- The warning logged when the action-word model file is missing
(api.py lines 88-89). -/
def missingModelWarning : String :=
  "Could not find action word model, skipping word_vec and word_id."

/-- Embedding of the word-column stage of `df_post_processing` (api.py lines
78-91), row-wise over the `word` column: with the model file present, each
row gets the model's vector and the dictionary id (UNK = 1 for unknown
words); otherwise both columns are set to the scalar 0 and a warning is
logged.  The subsequent `add_previous_prediction` group-apply (api.py line
93, code outside the sources under study) only adds `prev_`-prefixed lag
columns (spec §4.5 step 5) and is omitted here. -/
def df_post_processing (modelExists : Bool) (m : WordModel)
    (words : List String) : List (String × PCell × PCell) × List String :=
  if modelExists then
    (words.map (fun w =>
        (w, PCell.pvec (m.vec w),
         PCell.pnum (wordIdLookup (create_word_mapping m) w))), [])
  else
    (words.map (fun w => (w, PCell.pnum 0, PCell.pnum 0)),
     [missingModelWarning])

/-! ## Claim C1: the default split slices -/

lemma drop_take_append_drop (m : List α) (a b : ℕ) (hab : a ≤ b) :
    (m.take b).drop a ++ m.drop b = m.drop a := by
  rcases le_or_lt b m.length with h | h
  · conv_rhs => rw [← List.take_append_drop b m]
    rw [List.drop_append_eq_append_drop, List.length_take,
      min_eq_left h, Nat.sub_eq_zero_of_le hab, List.drop_zero]
  · rw [List.take_of_length_le (le_of_lt h),
      List.drop_eq_nil_of_le (le_of_lt h), List.append_nil]

lemma pySlice_append (l : List α) (a b c : ℕ) (hab : a ≤ b) (hbc : b ≤ c) :
    pySlice l a b ++ pySlice l b c = pySlice l a c := by
  unfold pySlice
  have h1 : l.take b = (l.take c).take b := by
    rw [List.take_take, min_eq_left hbc]
  rw [h1]
  exact drop_take_append_drop (l.take c) a b hab

lemma splitBound_mono (l : List String) (q r : ℚ) (hq : 0 ≤ q) (hqr : q ≤ r) :
    splitBound l q ≤ splitBound l r := by
  unfold splitBound pyInt
  have hl : (0 : ℚ) ≤ (l.length : ℚ) := Nat.cast_nonneg _
  have h1 : (0 : ℚ) ≤ (l.length : ℚ) * q := mul_nonneg hl hq
  have h2 : (0 : ℚ) ≤ (l.length : ℚ) * r := le_trans h1 (by
    exact mul_le_mul_of_nonneg_left hqr hl)
  rw [if_pos h1, if_pos h2]
  exact Int.toNat_le_toNat (Int.floor_le_floor (mul_le_mul_of_nonneg_left hqr hl))

/-- C1: with the default `data_split = (0.0, 0.8, 0.9, 0.99)`,
`generate_datasets` builds exactly three splits from the contiguous,
pairwise-disjoint slices `songs[int(N*lo):int(N*hi)]`; for `N = 1000` these
are `songs[0:800]`, `songs[800:900]`, `songs[900:990]`, their concatenation
is `songs.take 990`, so `songs[990:1000]` appear in no split.  The last
conjuncts show, for a song list `l` of any length, that the loop produces
exactly three phases and that the four boundaries are monotone (so the index
ranges are contiguous and pairwise disjoint). -/
theorem default_split_slices (songs l : List String) (h : songs.length = 1000) :
    splitSlices songs defaultDataSplit =
      [("train", pySlice songs 0 800), ("val", pySlice songs 800 900),
       ("test", pySlice songs 900 990)] ∧
    (pySlice songs 0 800 ++ pySlice songs 800 900) ++ pySlice songs 900 990
      = songs.take 990 ∧
    (splitSlices l defaultDataSplit).length = 3 ∧
    splitBound l 0 = 0 ∧
    splitBound l 0 ≤ splitBound l (4 / 5) ∧
    splitBound l (4 / 5) ≤ splitBound l (9 / 10) ∧
    splitBound l (9 / 10) ≤ splitBound l (99 / 100) := by
  have hb0 : splitBound songs 0 = 0 := by
    simp [splitBound, pyInt]
  have hb1 : splitBound songs (4 / 5) = 800 := by
    unfold splitBound pyInt
    rw [h]
    norm_num
    decide
  have hb2 : splitBound songs (9 / 10) = 900 := by
    unfold splitBound pyInt
    rw [h]
    norm_num
    decide
  have hb3 : splitBound songs (99 / 100) = 990 := by
    unfold splitBound pyInt
    rw [h]
    norm_num
    decide
  refine ⟨?_, ?_, ?_, ?_, ?_, ?_, ?_⟩
  · simp only [splitSlices, defaultDataSplit, phaseNames, List.tail_cons,
      List.zip_cons_cons, List.zip_nil_right, List.map_cons, List.map_nil,
      hb0, hb1, hb2, hb3]
  · rw [pySlice_append songs 0 800 900 (by norm_num) (by norm_num),
      pySlice_append songs 0 900 990 (by norm_num) (by norm_num)]
    simp [pySlice]
  · simp [splitSlices, defaultDataSplit, phaseNames]
  · simp [splitBound, pyInt]
  · exact splitBound_mono l 0 (4 / 5) (by norm_num) (by norm_num)
  · exact splitBound_mono l (4 / 5) (9 / 10) (by norm_num) (by norm_num)
  · exact splitBound_mono l (9 / 10) (99 / 100) (by norm_num) (by norm_num)

/-- Witness for C1 at a concrete 1000-song list. -/
theorem default_split_slices_witness :
    (List.replicate 1000 "s").length = 1000 ∧
    (splitSlices (List.replicate 1000 "s") defaultDataSplit =
      [("train", pySlice (List.replicate 1000 "s") 0 800),
       ("val", pySlice (List.replicate 1000 "s") 800 900),
       ("test", pySlice (List.replicate 1000 "s") 900 990)] ∧
    (pySlice (List.replicate 1000 "s") 0 800 ++
        pySlice (List.replicate 1000 "s") 800 900) ++
        pySlice (List.replicate 1000 "s") 900 990
      = (List.replicate 1000 "s").take 990 ∧
    (splitSlices ([] : List String) defaultDataSplit).length = 3 ∧
    splitBound [] 0 = 0 ∧
    splitBound [] 0 ≤ splitBound [] (4 / 5) ∧
    splitBound [] (4 / 5) ≤ splitBound [] (9 / 10) ∧
    splitBound [] (9 / 10) ≤ splitBound [] (99 / 100)) :=
  ⟨by rw [List.length_replicate],
   default_split_slices (List.replicate 1000 "s") [] (by rw [List.length_replicate])⟩

/-! ## Pipeline lemmas shared by C4, C7, C9 -/

lemma pySlice_subset {l : List α} {a b : ℕ} {x : α} (h : x ∈ pySlice l a b) :
    x ∈ l :=
  List.mem_of_mem_take (List.mem_of_mem_drop h)

lemma songs2dataset_none (e : String → Option Table) (a : List Table → Table)
    (folders : List String) (h : ∀ f ∈ folders, e f = none) :
    songs2dataset e a folders = (none, [emptySongsWarning]) := by
  unfold songs2dataset
  have hnil : (folders.map e).filterMap id = [] := by
    rw [List.filterMap_eq_nil_iff]
    intro x hx
    rcases List.mem_map.mp hx with ⟨f, hf, rfl⟩
    exact h f hf
  simp [hnil]

lemma songs2dataset_some (e : String → Option Table) (a : List Table → Table)
    (folders : List String) (df : Table)
    (h : (songs2dataset e a folders).1 = some df) :
    songs2dataset e a folders = (some df, []) := by
  unfold songs2dataset at h ⊢
  by_cases hc : ((folders.map e).filterMap id).length = 0
  · rw [if_pos hc] at h
    exact absurd h (by simp)
  · rw [if_neg hc] at h ⊢
    simp only at h
    rw [h]

lemma processPhase_skip (sq : ℚ → ℚ) (cols : List String) (w : List String)
    (phase : String) (st : RunState) (herr : st.error = none) :
    processPhase sq cols (none, w) phase st =
      { st with warnings :=
          (st.warnings ++ w) ++ ["Skipped " ++ phase ++ " dataset. No songs."] } := by
  unfold processPhase
  rw [herr]
  rfl

lemma processPhase_err (sq : ℚ → ℚ) (cols : List String)
    (dfw : Option Table × List String) (phase : String) (st : RunState)
    (herr : st.error.isSome) :
    processPhase sq cols dfw phase st = st := by
  unfold processPhase
  rw [if_pos herr]

lemma processPhase_statsFile_nontrain (sq : ℚ → ℚ) (cols : List String)
    (dfw : Option Table × List String) (phase : String) (st : RunState)
    (hph : phase ≠ "train") :
    (processPhase sq cols dfw phase st).statsFile = st.statsFile := by
  unfold processPhase
  by_cases herr : st.error.isSome
  · rw [if_pos herr]
  · rw [if_neg herr]
    cases hdf : dfw.1 with
    | none => rfl
    | some df =>
        simp only [if_neg hph]
        cases hst : st.statsFile with
        | none => rfl
        | some stats =>
            cases hn : normalize_columns df stats cols with
            | none => simp [hst, hn]
            | some dfn => simp [hst, hn]

lemma processPhase_train_some (sq : ℚ → ℚ) (cols : List String) (df : Table)
    (w : List String) (st : RunState) (herr : st.error = none) :
    processPhase sq cols (some df, w) "train" st =
      (match normalize_columns (save_normalization_stats df cols sq).1
          (save_normalization_stats df cols sq).2 cols with
       | some dfn =>
           { st with statsFile := some (save_normalization_stats df cols sq).2,
                     warnings := st.warnings ++ w,
                     outputs := st.outputs ++ [("train", dfn)] }
       | none =>
           { st with statsFile := some (save_normalization_stats df cols sq).2,
                     warnings := st.warnings ++ w,
                     error := some "KeyError" }) := by
  unfold processPhase
  rw [herr]
  simp only [Option.isSome_none, Bool.false_eq_true, if_false, if_pos rfl]
  cases hn : normalize_columns (save_normalization_stats df cols sq).1
      (save_normalization_stats df cols sq).2 cols with
  | none => simp [hn]
  | some dfn => simp [hn]

lemma processPhase_train_statsFile (sq : ℚ → ℚ) (cols : List String) (df : Table)
    (w : List String) (st : RunState) (herr : st.error = none) :
    (processPhase sq cols (some df, w) "train" st).statsFile =
      some (save_normalization_stats df cols sq).2 := by
  rw [processPhase_train_some sq cols df w st herr]
  cases hn : normalize_columns (save_normalization_stats df cols sq).1
      (save_normalization_stats df cols sq).2 cols with
  | none => simp [hn]
  | some dfn => simp [hn]

lemma processPhase_nontrain_some (sq : ℚ → ℚ) (cols : List String) (df : Table)
    (w : List String) (phase : String) (st : RunState)
    (herr : st.error = none) (hph : phase ≠ "train") :
    processPhase sq cols (some df, w) phase st =
      (match st.statsFile with
       | none => { st with warnings := st.warnings ++ w,
                           error := some "FileNotFoundError: col_stats.pkl" }
       | some stats =>
           match normalize_columns df stats cols with
           | none => { st with warnings := st.warnings ++ w,
                               error := some "KeyError" }
           | some dfn => { st with warnings := st.warnings ++ w,
                                   outputs := st.outputs ++ [(phase, dfn)] }) := by
  unfold processPhase
  rw [herr]
  simp only [Option.isSome_none, Bool.false_eq_true, if_false, if_neg hph]

lemma splitSlices_quad (songs : List String) (q0 q1 q2 q3 : ℚ) :
    splitSlices songs [q0, q1, q2, q3] =
      [("train", pySlice songs (splitBound songs q0) (splitBound songs q1)),
       ("val", pySlice songs (splitBound songs q1) (splitBound songs q2)),
       ("test", pySlice songs (splitBound songs q2) (splitBound songs q3))] := by
  simp [splitSlices, phaseNames]

/-! ## Claim C7: empty splits are skipped, not fatal -/

/-- C7: when every extraction result is null, `songs2dataset` warns and
returns `None` instead of raising; `generate_datasets` answers a `None` split
by logging a skip warning and leaving the state otherwise untouched (so the
remaining splits still run); a whole run over folders that all fail
terminates with no error, no outputs and six warnings. -/
theorem empty_corpus_recoverable (e : String → Option Table)
    (a : List Table → Table) (sq : ℚ → ℚ) (folders songs : List String)
    (cols : List String) (q0 q1 q2 q3 : ℚ) (st0 : Option Stats)
    (phase : String) (st : RunState)
    (hfold : ∀ f ∈ folders, e f = none)
    (hsongs : ∀ f ∈ songs, e f = none)
    (herr : st.error = none) :
    songs2dataset e a folders = (none, [emptySongsWarning]) ∧
    processPhase sq cols (songs2dataset e a folders) phase st =
      { st with warnings := (st.warnings ++ [emptySongsWarning]) ++
          ["Skipped " ++ phase ++ " dataset. No songs."] } ∧
    generate_datasets e a sq songs [q0, q1, q2, q3] cols st0 =
      { statsFile := st0, outputs := [],
        warnings := [emptySongsWarning, "Skipped train dataset. No songs.",
          emptySongsWarning, "Skipped val dataset. No songs.",
          emptySongsWarning, "Skipped test dataset. No songs."],
        error := none } := by
  have hsd : songs2dataset e a folders = (none, [emptySongsWarning]) :=
    songs2dataset_none e a folders hfold
  refine ⟨hsd, ?_, ?_⟩
  · rw [hsd, processPhase_skip sq cols [emptySongsWarning] phase st herr]
  · have hs1 : songs2dataset e a
        (pySlice songs (splitBound songs q0) (splitBound songs q1)) =
        (none, [emptySongsWarning]) :=
      songs2dataset_none e a _ (fun f hf => hsongs f (pySlice_subset hf))
    have hs2 : songs2dataset e a
        (pySlice songs (splitBound songs q1) (splitBound songs q2)) =
        (none, [emptySongsWarning]) :=
      songs2dataset_none e a _ (fun f hf => hsongs f (pySlice_subset hf))
    have hs3 : songs2dataset e a
        (pySlice songs (splitBound songs q2) (splitBound songs q3)) =
        (none, [emptySongsWarning]) :=
      songs2dataset_none e a _ (fun f hf => hsongs f (pySlice_subset hf))
    unfold generate_datasets
    rw [splitSlices_quad]
    simp only [List.foldl_cons, List.foldl_nil]
    rw [hs1, hs2, hs3,
      processPhase_skip sq cols [emptySongsWarning] "train" (initState st0) rfl]
    rw [processPhase_skip sq cols [emptySongsWarning] "val" _ rfl]
    rw [processPhase_skip sq cols [emptySongsWarning] "test" _ rfl]
    simp [initState]

/-- Witness for C7 at a concrete failing corpus. -/
theorem empty_corpus_recoverable_witness :
    (∀ f ∈ ["x"], (fun _ : String => (none : Option Table)) f = none) ∧
    ((initState none).error = none) ∧
    (songs2dataset (fun _ => none) (fun _ => []) ["x"] =
        (none, [emptySongsWarning]) ∧
     processPhase id [] (songs2dataset (fun _ => none) (fun _ => []) ["x"]) "val"
        (initState none) =
      { initState none with warnings :=
          ((initState none).warnings ++ [emptySongsWarning]) ++
          ["Skipped " ++ "val" ++ " dataset. No songs."] } ∧
     generate_datasets (fun _ => none) (fun _ => []) id ["x"] [0, 1, 1, 1] []
        none =
      { statsFile := none, outputs := [],
        warnings := [emptySongsWarning, "Skipped train dataset. No songs.",
          emptySongsWarning, "Skipped val dataset. No songs.",
          emptySongsWarning, "Skipped test dataset. No songs."],
        error := none }) :=
  ⟨by intro f _; rfl, rfl,
   empty_corpus_recoverable (fun _ => none) (fun _ => []) id ["x"] ["x"] []
     0 1 1 1 none "val" (initState none)
     (by intro f _; rfl) (by intro f _; rfl) rfl⟩

/-! ## Claim C9: an empty train split skips the fit and reuses on-disk stats -/

/-- C9: when the train split yields zero songs, `generate_datasets` never
calls `save_normalization_stats` (the stats file keeps its initial contents
`st0` in every outcome), still proceeds to val and test, and normalizes them
with whatever stats file already exists on disk; with no stats file on disk
the run aborts on the first non-empty later split with `FileNotFoundError`.
The second conjunct describes the whole run as a function of the pre-existing
stats file. -/
theorem train_empty_uses_disk_stats (e : String → Option Table)
    (a : List Table → Table) (sq : ℚ → ℚ) (songs : List String)
    (q0 q1 q2 q3 : ℚ) (cols : List String) (st0 : Option Stats)
    (dfv dft : Table)
    (htrain : (songs2dataset e a
        (pySlice songs (splitBound songs q0) (splitBound songs q1))).1 = none)
    (hval : songs2dataset e a
        (pySlice songs (splitBound songs q1) (splitBound songs q2)) =
        (some dfv, []))
    (htest : songs2dataset e a
        (pySlice songs (splitBound songs q2) (splitBound songs q3)) =
        (some dft, [])) :
    (generate_datasets e a sq songs [q0, q1, q2, q3] cols st0).statsFile = st0 ∧
    generate_datasets e a sq songs [q0, q1, q2, q3] cols st0 =
      (match st0 with
       | none =>
           { statsFile := none, outputs := [],
             warnings := [emptySongsWarning,
               "Skipped train dataset. No songs."],
             error := some "FileNotFoundError: col_stats.pkl" }
       | some S =>
           match normalize_columns dfv S cols with
           | none =>
               { statsFile := some S, outputs := [],
                 warnings := [emptySongsWarning,
                   "Skipped train dataset. No songs."],
                 error := some "KeyError" }
           | some dvn =>
               match normalize_columns dft S cols with
               | none =>
                   { statsFile := some S, outputs := [("val", dvn)],
                     warnings := [emptySongsWarning,
                       "Skipped train dataset. No songs."],
                     error := some "KeyError" }
               | some dtn =>
                   { statsFile := some S,
                     outputs := [("val", dvn), ("test", dtn)],
                     warnings := [emptySongsWarning,
                       "Skipped train dataset. No songs."],
                     error := none }) := by
  have htrain2 : songs2dataset e a
      (pySlice songs (splitBound songs q0) (splitBound songs q1)) =
      (none, [emptySongsWarning]) := by
    have := songs2dataset_some e a
      (pySlice songs (splitBound songs q0) (splitBound songs q1))
    unfold songs2dataset at htrain ⊢
    by_cases hc : (((pySlice songs (splitBound songs q0)
        (splitBound songs q1)).map e).filterMap id).length = 0
    · rw [if_pos hc]
    · rw [if_neg hc] at htrain
      exact absurd htrain (by simp)
  have hrun : generate_datasets e a sq songs [q0, q1, q2, q3] cols st0 =
      (match st0 with
       | none =>
           { statsFile := none, outputs := [],
             warnings := [emptySongsWarning,
               "Skipped train dataset. No songs."],
             error := some "FileNotFoundError: col_stats.pkl" }
       | some S =>
           match normalize_columns dfv S cols with
           | none =>
               { statsFile := some S, outputs := [],
                 warnings := [emptySongsWarning,
                   "Skipped train dataset. No songs."],
                 error := some "KeyError" }
           | some dvn =>
               match normalize_columns dft S cols with
               | none =>
                   { statsFile := some S, outputs := [("val", dvn)],
                     warnings := [emptySongsWarning,
                       "Skipped train dataset. No songs."],
                     error := some "KeyError" }
               | some dtn =>
                   { statsFile := some S,
                     outputs := [("val", dvn), ("test", dtn)],
                     warnings := [emptySongsWarning,
                       "Skipped train dataset. No songs."],
                     error := none }) := by
    unfold generate_datasets
    rw [splitSlices_quad]
    simp only [List.foldl_cons, List.foldl_nil]
    rw [htrain2, hval, htest,
      processPhase_skip sq cols [emptySongsWarning] "train" (initState st0) rfl]
    cases st0 with
    | none =>
        rw [processPhase_nontrain_some sq cols dfv [] "val" _ rfl (by decide)]
        simp only [initState]
        simp [processPhase]
    | some S =>
        rw [processPhase_nontrain_some sq cols dfv [] "val" _ rfl (by decide)]
        simp only [initState]
        cases hnv : normalize_columns dfv S cols with
        | none =>
            simp only [hnv]
            simp [processPhase]
        | some dvn =>
            simp only [hnv]
            rw [processPhase_nontrain_some sq cols dft [] "test" _ rfl
              (by decide)]
            cases hnt : normalize_columns dft S cols with
            | none => simp [hnt]
            | some dtn => simp [hnt]
  refine ⟨?_, hrun⟩
  rw [hrun]
  cases st0 with
  | none => rfl
  | some S =>
      cases hnv : normalize_columns dfv S cols with
      | none => simp [hnv]
      | some dvn =>
          cases hnt : normalize_columns dft S cols with
          | none => simp [hnv, hnt]
          | some dtn => simp [hnv, hnt]

/-- Sample extraction function for witnesses: fails on folder `a`,
succeeds (with an empty table) elsewhere. -/
def exW : String → Option Table := fun f => if f = "a" then none else some []

/-- Sample assembly function for witnesses. -/
def asW : List Table → Table := fun _ => []

/-- Witness for C9 at a concrete run: 3 songs, split `[0, 1/3, 2/3, 1]`,
train extraction fails, a stats file already on disk. -/
theorem train_empty_uses_disk_stats_witness :
    ((songs2dataset exW asW (pySlice ["a", "b", "c"]
        (splitBound ["a", "b", "c"] 0)
        (splitBound ["a", "b", "c"] (1 / 3)))).1 = none) ∧
    (songs2dataset exW asW (pySlice ["a", "b", "c"]
        (splitBound ["a", "b", "c"] (1 / 3))
        (splitBound ["a", "b", "c"] (2 / 3))) = (some [], [])) ∧
    (songs2dataset exW asW (pySlice ["a", "b", "c"]
        (splitBound ["a", "b", "c"] (2 / 3))
        (splitBound ["a", "b", "c"] 1)) = (some [], [])) ∧
    ((generate_datasets exW asW id ["a", "b", "c"] [0, 1 / 3, 2 / 3, 1] []
        (some [])).statsFile = some []) ∧
    (generate_datasets exW asW id ["a", "b", "c"] [0, 1 / 3, 2 / 3, 1] []
        (some []) =
      { statsFile := some [], outputs := [("val", ([] : Table)), ("test", ([] : Table))],
        warnings := [emptySongsWarning, "Skipped train dataset. No songs."],
        error := none }) := by
  have hb0 : splitBound ["a", "b", "c"] 0 = 0 := by
    unfold splitBound pyInt
    norm_num
  have hb1 : splitBound ["a", "b", "c"] (1 / 3) = 1 := by
    unfold splitBound pyInt
    norm_num
  have hb2 : splitBound ["a", "b", "c"] (2 / 3) = 2 := by
    unfold splitBound pyInt
    norm_num
    decide
  have hb3 : splitBound ["a", "b", "c"] 1 = 3 := by
    unfold splitBound pyInt
    norm_num
    decide
  have h1 : (songs2dataset exW asW (pySlice ["a", "b", "c"]
      (splitBound ["a", "b", "c"] 0)
      (splitBound ["a", "b", "c"] (1 / 3)))).1 = none := by
    rw [hb0, hb1]; decide
  have h2 : songs2dataset exW asW (pySlice ["a", "b", "c"]
      (splitBound ["a", "b", "c"] (1 / 3))
      (splitBound ["a", "b", "c"] (2 / 3))) = (some [], []) := by
    rw [hb1, hb2]; decide
  have h3 : songs2dataset exW asW (pySlice ["a", "b", "c"]
      (splitBound ["a", "b", "c"] (2 / 3))
      (splitBound ["a", "b", "c"] 1)) = (some [], []) := by
    rw [hb2, hb3]; decide
  have hmain := train_empty_uses_disk_stats exW asW id ["a", "b", "c"]
    0 (1 / 3) (2 / 3) 1 [] (some []) [] [] h1 h2 h3
  refine ⟨h1, h2, h3, hmain.1, ?_⟩
  rw [hmain.2]
  decide

/-! ## Claim C4: normalization stats are a function of the train split alone -/

/-- C4: whenever two runs (with possibly different extraction functions, song
lists, and pre-existing val/test material) produce the same train table `df`,
the stats file persisted by their train phase is the identical
`save_normalization_stats df`; the train phase persists those stats before
normalizing the (coerced) train table with exactly them; phases other than
train never write the stats file; and `generate_datasets` runs the train
phase before the val and test phases. -/
theorem stats_fit_on_train_only (e1 e2 : String → Option Table)
    (a1 a2 : List Table → Table) (sq : ℚ → ℚ) (songs1 songs2 : List String)
    (q0 q1 q2 q3 : ℚ) (cols : List String) (st1 st2 : Option Stats)
    (df : Table) (dfw : Option Table × List String) (phase : String)
    (st : RunState)
    (h1 : (songs2dataset e1 a1 (pySlice songs1 (splitBound songs1 q0)
        (splitBound songs1 q1))).1 = some df)
    (h2 : (songs2dataset e2 a2 (pySlice songs2 (splitBound songs2 q0)
        (splitBound songs2 q1))).1 = some df)
    (herr : st.error = none) (hph : phase ≠ "train") :
    (processPhase sq cols (songs2dataset e1 a1 (pySlice songs1
        (splitBound songs1 q0) (splitBound songs1 q1))) "train"
        (initState st1)).statsFile
      = some (save_normalization_stats df cols sq).2 ∧
    (processPhase sq cols (songs2dataset e2 a2 (pySlice songs2
        (splitBound songs2 q0) (splitBound songs2 q1))) "train"
        (initState st2)).statsFile
      = some (save_normalization_stats df cols sq).2 ∧
    (processPhase sq cols (songs2dataset e1 a1 (pySlice songs1
        (splitBound songs1 q0) (splitBound songs1 q1))) "train"
        (initState st1)).statsFile
      = (processPhase sq cols (songs2dataset e2 a2 (pySlice songs2
        (splitBound songs2 q0) (splitBound songs2 q1))) "train"
        (initState st2)).statsFile ∧
    processPhase sq cols (some df, []) "train" st =
      (match normalize_columns (save_normalization_stats df cols sq).1
          (save_normalization_stats df cols sq).2 cols with
       | some dfn =>
           { st with statsFile := some (save_normalization_stats df cols sq).2,
                     outputs := st.outputs ++ [("train", dfn)] }
       | none =>
           { st with statsFile := some (save_normalization_stats df cols sq).2,
                     error := some "KeyError" }) ∧
    (processPhase sq cols dfw phase st).statsFile = st.statsFile ∧
    generate_datasets e1 a1 sq songs1 [q0, q1, q2, q3] cols st1 =
      processPhase sq cols (songs2dataset e1 a1 (pySlice songs1
          (splitBound songs1 q2) (splitBound songs1 q3))) "test"
        (processPhase sq cols (songs2dataset e1 a1 (pySlice songs1
            (splitBound songs1 q1) (splitBound songs1 q2))) "val"
          (processPhase sq cols (songs2dataset e1 a1 (pySlice songs1
              (splitBound songs1 q0) (splitBound songs1 q1))) "train"
            (initState st1))) := by
  have ha : (processPhase sq cols (songs2dataset e1 a1 (pySlice songs1
      (splitBound songs1 q0) (splitBound songs1 q1))) "train"
      (initState st1)).statsFile
      = some (save_normalization_stats df cols sq).2 := by
    rw [songs2dataset_some e1 a1 _ df h1]
    exact processPhase_train_statsFile sq cols df [] _ rfl
  have hb : (processPhase sq cols (songs2dataset e2 a2 (pySlice songs2
      (splitBound songs2 q0) (splitBound songs2 q1))) "train"
      (initState st2)).statsFile
      = some (save_normalization_stats df cols sq).2 := by
    rw [songs2dataset_some e2 a2 _ df h2]
    exact processPhase_train_statsFile sq cols df [] _ rfl
  refine ⟨ha, hb, ha.trans hb.symm, ?_, ?_, ?_⟩
  · rw [processPhase_train_some sq cols df [] st herr]
    cases hn : normalize_columns (save_normalization_stats df cols sq).1
        (save_normalization_stats df cols sq).2 cols with
    | none => simp [hn]
    | some dfn => simp [hn]
  · exact processPhase_statsFile_nontrain sq cols dfw phase st hph
  · unfold generate_datasets
    rw [splitSlices_quad]
    simp only [List.foldl_cons, List.foldl_nil]

/-- Witness for C4 at two concrete runs sharing the same (empty) train
table. -/
theorem stats_fit_on_train_only_witness :
    ((songs2dataset (fun _ => some []) asW (pySlice ["a"] (splitBound ["a"] 0)
        (splitBound ["a"] 1))).1 = some ([] : Table)) ∧
    ((songs2dataset (fun _ => some []) asW (pySlice ["z"] (splitBound ["z"] 0)
        (splitBound ["z"] 1))).1 = some ([] : Table)) ∧
    ((initState none).error = none) ∧ ("val" : String) ≠ "train" ∧
    ((processPhase id [] (songs2dataset (fun _ => some []) asW (pySlice ["a"]
        (splitBound ["a"] 0) (splitBound ["a"] 1))) "train"
        (initState none)).statsFile
      = some (save_normalization_stats [] [] id).2 ∧
    (processPhase id [] (songs2dataset (fun _ => some []) asW (pySlice ["z"]
        (splitBound ["z"] 0) (splitBound ["z"] 1))) "train"
        (initState (some []))).statsFile
      = some (save_normalization_stats [] [] id).2 ∧
    (processPhase id [] (songs2dataset (fun _ => some []) asW (pySlice ["a"]
        (splitBound ["a"] 0) (splitBound ["a"] 1))) "train"
        (initState none)).statsFile
      = (processPhase id [] (songs2dataset (fun _ => some []) asW (pySlice ["z"]
        (splitBound ["z"] 0) (splitBound ["z"] 1))) "train"
        (initState (some []))).statsFile ∧
    processPhase id [] (some ([] : Table), []) "train" (initState none) =
      (match normalize_columns (save_normalization_stats [] [] id).1
          (save_normalization_stats [] [] id).2 [] with
       | some dfn =>
           { initState none with
               statsFile := some (save_normalization_stats [] [] id).2,
               outputs := (initState none).outputs ++ [("train", dfn)] }
       | none =>
           { initState none with
               statsFile := some (save_normalization_stats [] [] id).2,
               error := some "KeyError" }) ∧
    (processPhase id [] (none, []) "val" (initState none)).statsFile
      = (initState none).statsFile ∧
    generate_datasets (fun _ => some []) asW id ["a"] [0, 1, 1, 1] [] none =
      processPhase id [] (songs2dataset (fun _ => some []) asW (pySlice ["a"]
          (splitBound ["a"] 1) (splitBound ["a"] 1))) "test"
        (processPhase id [] (songs2dataset (fun _ => some []) asW
            (pySlice ["a"] (splitBound ["a"] 1) (splitBound ["a"] 1))) "val"
          (processPhase id [] (songs2dataset (fun _ => some []) asW
              (pySlice ["a"] (splitBound ["a"] 0) (splitBound ["a"] 1)))
            "train" (initState none)))) := by
  have ha0 : splitBound ["a"] 0 = 0 := by
    unfold splitBound pyInt
    norm_num
  have ha1 : splitBound ["a"] 1 = 1 := by
    unfold splitBound pyInt
    norm_num
  have hz0 : splitBound ["z"] 0 = 0 := by
    unfold splitBound pyInt
    norm_num
  have hz1 : splitBound ["z"] 1 = 1 := by
    unfold splitBound pyInt
    norm_num
  have h1 : (songs2dataset (fun _ => some []) asW (pySlice ["a"]
      (splitBound ["a"] 0) (splitBound ["a"] 1))).1 = some ([] : Table) := by
    rw [ha0, ha1]; decide
  have h2 : (songs2dataset (fun _ => some []) asW (pySlice ["z"]
      (splitBound ["z"] 0) (splitBound ["z"] 1))).1 = some ([] : Table) := by
    rw [hz0, hz1]; decide
  exact ⟨h1, h2, rfl, by decide,
    stats_fit_on_train_only (fun _ => some []) (fun _ => some []) asW asW id
      ["a"] ["z"] 0 1 1 1 [] none (some []) [] (none, []) "val"
      (initState none) h1 h2 rfl (by decide)⟩

/-! ## Claim C5: `normalize_columns` maps exactly the stats∩table columns -/

/-- Reference definition following the words of the spec (§4.6 transform):
apply `(value - mean) / (std + epsilon)` elementwise to every column present
in both the table and the stats; leave every other column of the table
unchanged. -/
def normalizeSpec (df : Table) (stats : Stats) : Table :=
  df.map (fun p =>
    match statLookup stats p.1 with
    | some ms => (p.1, p.2.map (valAffine ms.1 ms.2))
    | none => p)

lemma statLookup_isSome (stats : Stats) (c : String) :
    (statLookup stats c).isSome = true ↔ c ∈ stats.map (fun p => p.1) := by
  induction stats with
  | nil => simp [statLookup]
  | cons p ps ih =>
      by_cases hpc : p.1 = c
      · simp [statLookup, List.find?_cons, hpc]
      · have hbeq : (p.1 == c) = false := by
          simpa using hpc
        simp only [statLookup, List.find?_cons, hbeq, List.map_cons,
          List.mem_cons] at ih ⊢
        rw [ih]
        constructor
        · exact fun h => Or.inr h
        · rintro (h | h)
          · exact absurd h.symm hpc
          · exact h

/-- C5: whenever the stats object was fit with the same configuration (so
its column set is exactly `cols_to_normalize`), `normalize_columns` succeeds
and equals the spec's transform: the affine map with the fixed
`epsilon = 1e-6` is applied exactly to the columns present in both the table
and the stats, and every other column of the table is unchanged. -/
theorem normalize_columns_exact (df : Table) (stats : Stats)
    (cols : List String) (m s q : ℚ)
    (hdom : stats.map (fun p => p.1) = cols) :
    normalize_columns df stats cols = some (normalizeSpec df stats) ∧
    valAffine m s (Val.num q) = Val.num ((q - m) / (s + 1 / 1000000)) := by
  constructor
  · induction df with
    | nil => rfl
    | cons p rest ih =>
        rw [normalize_columns, ih]
        by_cases hmem : p.1 ∈ cols
        · have hsome : (statLookup stats p.1).isSome = true := by
            rw [statLookup_isSome, hdom]
            exact hmem
          rcases Option.isSome_iff_exists.mp hsome with ⟨ms, hms⟩
          simp [normCell, hmem, hms, normalizeSpec]
        · have hnone : statLookup stats p.1 = none := by
            rcases hst : statLookup stats p.1 with _ | ms
            · rfl
            · exact absurd ((statLookup_isSome stats p.1).mp (by
                rw [hst]; rfl)) (by rw [hdom]; exact hmem)
          simp [normCell, hmem, hnone, normalizeSpec]
  · rfl

/-- Witness for C5 at a concrete table and fitted stats. -/
theorem normalize_columns_exact_witness :
    (([("a", (0 : ℚ), (1 : ℚ))] : Stats).map (fun p => p.1) = ["a"]) ∧
    (normalize_columns [("a", [Val.num 1]), ("b", [Val.num 2])]
        [("a", 0, 1)] ["a"] =
      some (normalizeSpec [("a", [Val.num 1]), ("b", [Val.num 2])]
        [("a", 0, 1)]) ∧
    valAffine 5 7 (Val.num 3) = Val.num ((3 - 5) / (7 + 1 / 1000000))) :=
  ⟨rfl, normalize_columns_exact [("a", [Val.num 1]), ("b", [Val.num 2])]
    [("a", 0, 1)] ["a"] 5 7 3 rfl⟩

/-! ## Claim C6: the fit coerces non-finite values first, then takes
population statistics -/

/-- The rationals a column contributes to the fit: its cells after the
`infinite2zero` coercion. -/
def coercedRats (cl : List Val) : List ℚ :=
  (cl.map infinite2zero).map Val.toRat

lemma lookupCol_coerceCols (df : Table) (cols : List String) (c : String)
    (hc : c ∈ cols) :
    lookupCol (coerceCols df cols) c =
      (lookupCol df c).map (fun l => l.map infinite2zero) := by
  induction df with
  | nil => rfl
  | cons p rest ih =>
      by_cases hpc : p.1 = c
      · subst hpc
        simp [coerceCols, lookupCol, List.find?_cons, hc]
      · have hbeq : (p.1 == c) = false := by simpa using hpc
        by_cases hmem : p.1 ∈ cols
        · simpa [coerceCols, lookupCol, List.find?_cons, hbeq, hmem]
            using ih
        · simpa [coerceCols, lookupCol, List.find?_cons, hbeq, hmem]
            using ih

lemma statLookup_map_self (cols : List String) (f : String → ℚ × ℚ)
    (c : String) (hc : c ∈ cols) :
    statLookup (cols.map (fun x => (x, f x))) c = some (f c) := by
  induction cols with
  | nil => cases hc
  | cons a as ih =>
      by_cases hac : a = c
      · subst hac
        simp [statLookup, List.find?_cons]
      · have hcas : c ∈ as := by
          rcases List.mem_cons.mp hc with h1 | h1
          · exact absurd h1.symm hac
          · exact h1
        have hbeq : (a == c) = false := by simpa using hac
        simpa [statLookup, List.find?_cons, hbeq] using ih hcas

lemma qmean_mul_length (l : List ℚ) (h : l ≠ []) :
    qmean l * (l.length : ℚ) = l.sum := by
  have hb : ((l.length : ℕ) : ℚ) ≠ 0 :=
    Nat.cast_ne_zero.mpr (fun hl => h (List.length_eq_zero.mp hl))
  unfold qmean
  exact div_mul_cancel₀ _ hb

lemma qvar_mul_length (l : List ℚ) (h : l ≠ []) :
    qvar l * (l.length : ℚ) = (l.map (fun x => (x - qmean l) ^ 2)).sum := by
  have hne : l.map (fun x => (x - qmean l) ^ 2) ≠ [] := by
    simpa using h
  have key := qmean_mul_length (l.map (fun x => (x - qmean l) ^ 2)) hne
  rw [List.length_map] at key
  exact key

lemma fit_entry (df : Table) (cols : List String) (sq : ℚ → ℚ) (col : String)
    (cl : List Val) (hcol : col ∈ cols) (hlk : lookupCol df col = some cl) :
    statLookup (save_normalization_stats df cols sq).2 col
      = some (qmean (coercedRats cl), sq (qvar (coercedRats cl))) := by
  have hcr : colRats (coerceCols df cols) col = coercedRats cl := by
    unfold colRats coercedRats
    rw [lookupCol_coerceCols df cols col hcol, hlk]
    rfl
  have hms := statLookup_map_self cols
    (fun x => (qmean (colRats (coerceCols df cols) x),
      sq (qvar (colRats (coerceCols df cols) x)))) col hcol
  show statLookup (cols.map (fun x =>
    (x, qmean (colRats (coerceCols df cols) x),
     sq (qvar (colRats (coerceCols df cols) x))))) col = _
  rw [hms]
  simp [hcr]

/-- C6: `save_normalization_stats` coerces every non-finite value in each
configured column to 0 before any statistic is computed — its persisted entry
for a column is the mean/std of the coerced cells, so two tables whose
columns agree after coercion (differing arbitrarily at non-finite cells) get
identical stats — and the statistics are the population ones: mean·n = sum
and variance·n = sum of squared deviations (denominator `n`, not `n-1`). -/
theorem fit_coerces_then_population_stats (df df2 : Table)
    (cols : List String) (sq : ℚ → ℚ) (col : String) (cl cl2 : List Val)
    (hcol : col ∈ cols)
    (h1 : lookupCol df col = some cl)
    (h2 : lookupCol df2 col = some cl2)
    (hag : cl.map infinite2zero = cl2.map infinite2zero)
    (hne : cl ≠ []) :
    statLookup (save_normalization_stats df cols sq).2 col
      = some (qmean (coercedRats cl), sq (qvar (coercedRats cl))) ∧
    statLookup (save_normalization_stats df2 cols sq).2 col
      = statLookup (save_normalization_stats df cols sq).2 col ∧
    (∀ v : Val, v.isFinite = false → infinite2zero v = Val.num 0) ∧
    (∀ v : Val, v.isFinite = true → infinite2zero v = v) ∧
    qmean (coercedRats cl) * ((coercedRats cl).length : ℚ)
      = (coercedRats cl).sum ∧
    qvar (coercedRats cl) * ((coercedRats cl).length : ℚ)
      = ((coercedRats cl).map
          (fun x => (x - qmean (coercedRats cl)) ^ 2)).sum := by
  have hcr2 : coercedRats cl2 = coercedRats cl := by
    unfold coercedRats
    rw [hag]
  have hcrne : coercedRats cl ≠ [] := by
    unfold coercedRats
    simpa using hne
  refine ⟨fit_entry df cols sq col cl hcol h1, ?_, ?_, ?_, ?_, ?_⟩
  · rw [fit_entry df cols sq col cl hcol h1,
      fit_entry df2 cols sq col cl2 hcol h2, hcr2]
  · intro v hv
    cases v <;> simp [infinite2zero, Val.isFinite] <;> cases hv
  · intro v hv
    cases v <;> simp [infinite2zero, Val.isFinite] <;> cases hv
  · exact qmean_mul_length _ hcrne
  · exact qvar_mul_length _ hcrne

/-- Witness for C6: two one-column tables that differ only in which
non-finite marker they hold. -/
theorem fit_coerces_then_population_stats_witness :
    (("c" : String) ∈ ["c"] ∧
     lookupCol [("c", [Val.num 1, Val.inf])] "c" = some [Val.num 1, Val.inf] ∧
     lookupCol [("c", [Val.num 1, Val.nan])] "c" = some [Val.num 1, Val.nan] ∧
     ([Val.num 1, Val.inf].map infinite2zero
       = [Val.num 1, Val.nan].map infinite2zero) ∧
     ([Val.num 1, Val.inf] : List Val) ≠ []) ∧
    (statLookup (save_normalization_stats [("c", [Val.num 1, Val.inf])] ["c"]
        id).2 "c"
      = some (qmean (coercedRats [Val.num 1, Val.inf]),
          id (qvar (coercedRats [Val.num 1, Val.inf]))) ∧
    statLookup (save_normalization_stats [("c", [Val.num 1, Val.nan])] ["c"]
        id).2 "c"
      = statLookup (save_normalization_stats [("c", [Val.num 1, Val.inf])]
          ["c"] id).2 "c" ∧
    (∀ v : Val, v.isFinite = false → infinite2zero v = Val.num 0) ∧
    (∀ v : Val, v.isFinite = true → infinite2zero v = v) ∧
    qmean (coercedRats [Val.num 1, Val.inf]) *
        ((coercedRats [Val.num 1, Val.inf]).length : ℚ)
      = (coercedRats [Val.num 1, Val.inf]).sum ∧
    qvar (coercedRats [Val.num 1, Val.inf]) *
        ((coercedRats [Val.num 1, Val.inf]).length : ℚ)
      = ((coercedRats [Val.num 1, Val.inf]).map
          (fun x => (x - qmean (coercedRats [Val.num 1, Val.inf])) ^ 2)).sum) :=
  ⟨⟨by decide, by decide, by decide, by decide, by decide⟩,
   fit_coerces_then_population_stats [("c", [Val.num 1, Val.inf])]
     [("c", [Val.num 1, Val.nan])] ["c"] id "c"
     [Val.num 1, Val.inf] [Val.num 1, Val.nan]
     (by decide) (by decide) (by decide) (by decide) (by decide)⟩

/-! ## Claim C3: normalization round-trip -/

/-- The action of `normalize_columns` on one numeric column whose fitted
mean is its own and whose persisted std is `s`. -/
def affineCol (xs : List ℚ) (s : ℚ) : List ℚ :=
  xs.map (fun x => (x - qmean xs) / (s + epsilon))

lemma sum_map_affine (l : List ℚ) (m d : ℚ) :
    (l.map (fun x => (x - m) / d)).sum = (l.sum - l.length * m) / d := by
  induction l with
  | nil => simp
  | cons a t ih =>
      simp only [List.map_cons, List.sum_cons, ih, List.length_cons]
      rw [div_add_div_same]
      congr 1
      push_cast
      ring

lemma sum_map_div_const (l : List ℚ) (g : ℚ → ℚ) (c : ℚ) :
    (l.map (fun x => g x / c)).sum = (l.map g).sum / c := by
  induction l with
  | nil => simp
  | cons a t ih => simp only [List.map_cons, List.sum_cons, ih, div_add_div_same]

lemma sum_sq_nonneg (l : List ℚ) (m : ℚ) :
    0 ≤ (l.map (fun x => (x - m) ^ 2)).sum := by
  apply List.sum_nonneg
  intro x hx
  rcases List.mem_map.mp hx with ⟨y, _, rfl⟩
  exact sq_nonneg _

lemma sum_sq_eq_zero (l : List ℚ) (m : ℚ)
    (h : (l.map (fun x => (x - m) ^ 2)).sum = 0) : ∀ x ∈ l, x = m := by
  induction l with
  | nil => intro x hx; cases hx
  | cons a t ih =>
      simp only [List.map_cons, List.sum_cons] at h
      have h1 : 0 ≤ (a - m) ^ 2 := sq_nonneg _
      have h2 : 0 ≤ (t.map (fun x => (x - m) ^ 2)).sum := sum_sq_nonneg t m
      have ha : (a - m) ^ 2 = 0 := by linarith
      have ht : (t.map (fun x => (x - m) ^ 2)).sum = 0 := by linarith
      intro x hx
      rcases List.mem_cons.mp hx with rfl | hxt
      · have h2 : (2 : ℕ) ≠ 0 := by norm_num
        have hz := (pow_eq_zero_iff h2).mp ha
        linarith [hz]
      · exact ih ht x hxt

lemma map_i2z_num (xs : List ℚ) :
    (xs.map Val.num).map infinite2zero = xs.map Val.num := by
  induction xs with
  | nil => rfl
  | cons a t ih => simp [infinite2zero, Val.isFinite, ih]

lemma map_toRat_num (xs : List ℚ) : (xs.map Val.num).map Val.toRat = xs := by
  induction xs with
  | nil => rfl
  | cons a t ih => simp [Val.toRat, ih]

lemma map_valAffine_num (xs : List ℚ) (m s : ℚ) :
    (xs.map Val.num).map (valAffine m s) =
      (xs.map (fun x => (x - m) / (s + epsilon))).map Val.num := by
  induction xs with
  | nil => rfl
  | cons a t ih => simp [valAffine, ih]

/-- C3: fitting on a (finite-valued) column and then transforming that same
column gives exact mean 0; its variance is `qvar xs / (s+ε)²`, i.e. its
standard deviation is `s/(s+ε)`, which lies in `[1-t, 1]` for every tolerance
`t` with `ε ≤ t·s` — "approximately 1 within floating tolerance"; and a
constant column (`qvar xs = 0`, hence `s = 0`) maps to 0 in every row.  The
first two conjuncts tie the column-level statement to
`save_normalization_stats` and `normalize_columns` on the one-column table. -/
theorem normalization_round_trip (xs : List ℚ) (s : ℚ) (sq : ℚ → ℚ)
    (hne : xs ≠ []) (hsq : sq (qvar xs) = s) (hs : s * s = qvar xs)
    (hs0 : 0 ≤ s) :
    (save_normalization_stats [("c", xs.map Val.num)] ["c"] sq).2
      = [("c", qmean xs, s)] ∧
    normalize_columns [("c", xs.map Val.num)] [("c", qmean xs, s)] ["c"]
      = some [("c", (affineCol xs s).map Val.num)] ∧
    qmean (affineCol xs s) = 0 ∧
    (qvar xs = 0 → ∀ y ∈ affineCol xs s, y = 0) ∧
    qvar (affineCol xs s) = qvar xs / (s + epsilon) ^ 2 ∧
    0 ≤ s / (s + epsilon) ∧
    (s / (s + epsilon)) ^ 2 = qvar (affineCol xs s) ∧
    (∀ t : ℚ, 0 < t → epsilon ≤ t * s →
      1 - t ≤ s / (s + epsilon) ∧ s / (s + epsilon) ≤ 1) := by
  have hn : ((xs.length : ℕ) : ℚ) ≠ 0 :=
    Nat.cast_ne_zero.mpr (fun h0 => hne (List.length_eq_zero.mp h0))
  have heps : (0 : ℚ) < epsilon := by norm_num [epsilon]
  have hd : (0 : ℚ) < s + epsilon := by linarith
  have hXcol : colRats (coerceCols [("c", xs.map Val.num)] ["c"]) "c" = xs := by
    unfold colRats
    rw [lookupCol_coerceCols _ _ _ (List.mem_singleton.mpr rfl)]
    have hl : lookupCol [("c", xs.map Val.num)] "c" = some (xs.map Val.num) := by
      simp [lookupCol, List.find?_cons]
    rw [hl]
    show ((xs.map Val.num).map infinite2zero).map Val.toRat = xs
    rw [map_i2z_num, map_toRat_num]
  have hA : (save_normalization_stats [("c", xs.map Val.num)] ["c"] sq).2
      = [("c", qmean xs, s)] := by
    show [("c", qmean (colRats (coerceCols [("c", xs.map Val.num)] ["c"]) "c"),
        sq (qvar (colRats (coerceCols [("c", xs.map Val.num)] ["c"]) "c")))]
      = [("c", qmean xs, s)]
    rw [hXcol, hsq]
  have hB : normalize_columns [("c", xs.map Val.num)] [("c", qmean xs, s)]
      ["c"] = some [("c", (affineCol xs s).map Val.num)] := by
    have hcell : normCell [("c", qmean xs, s)] ["c"] ("c", xs.map Val.num)
        = some ("c", (affineCol xs s).map Val.num) := by
      unfold normCell
      rw [if_pos (List.mem_singleton.mpr rfl)]
      have hst : statLookup [("c", qmean xs, s)] "c" = some (qmean xs, s) := by
        simp [statLookup, List.find?_cons]
      rw [hst]
      show some ("c", (xs.map Val.num).map (valAffine (qmean xs) s)) = _
      rw [map_valAffine_num]
      rfl
    show (match normCell [("c", qmean xs, s)] ["c"] ("c", xs.map Val.num),
        normalize_columns [] [("c", qmean xs, s)] ["c"] with
      | some q, some qs => some (q :: qs)
      | _, _ => none) = _
    rw [hcell]
    rfl
  have hC : qmean (affineCol xs s) = 0 := by
    unfold affineCol qmean
    rw [sum_map_affine, List.length_map]
    have hz : xs.sum - (xs.length : ℚ) * (xs.sum / (xs.length : ℚ)) = 0 := by
      rw [mul_comm, div_mul_cancel₀ _ hn, sub_self]
    rw [hz, zero_div, zero_div]
  have hE : qvar (affineCol xs s) = qvar xs / (s + epsilon) ^ 2 := by
    have key : (affineCol xs s).map
        (fun y => (y - qmean (affineCol xs s)) ^ 2)
        = xs.map (fun x => ((x - qmean xs) ^ 2) / ((s + epsilon) ^ 2)) := by
      simp only [hC, sub_zero]
      unfold affineCol
      rw [List.map_map]
      have hfun : ((fun y => y ^ 2) ∘ fun x => (x - qmean xs) / (s + epsilon))
          = fun x => ((x - qmean xs) ^ 2) / ((s + epsilon) ^ 2) := by
        funext x
        simp [Function.comp, div_pow]
      rw [hfun]
    unfold qvar
    rw [key]
    unfold qmean
    rw [sum_map_div_const, List.length_map, List.length_map]
    exact div_right_comm _ _ _
  refine ⟨hA, hB, hC, ?_, hE, div_nonneg hs0 hd.le, ?_, ?_⟩
  · intro hv y hy
    unfold affineCol at hy
    rcases List.mem_map.mp hy with ⟨x, hx, rfl⟩
    have hsum : (xs.map (fun x => (x - qmean xs) ^ 2)).sum = 0 := by
      unfold qvar qmean at hv
      rw [List.length_map] at hv
      rcases div_eq_zero_iff.mp hv with h0 | h0
      · exact h0
      · exact absurd h0 hn
    have hxm : x = qmean xs := sum_sq_eq_zero xs (qmean xs) hsum x hx
    rw [hxm, sub_self, zero_div]
  · rw [div_pow, hE]
    congr 1
    rw [← hs]
    ring
  · intro t ht hts
    constructor
    · rw [le_div_iff₀ hd]
      nlinarith [mul_pos ht heps]
    · rw [div_le_one hd]
      linarith

lemma qvar_pair : qvar ([0, 2] : List ℚ) = 1 := by
  norm_num [qvar, qmean, List.sum_cons, List.sum_nil, List.map_cons,
    List.map_nil, List.length]

/-- Witness for C3 at the concrete column `[0, 2]` (mean 1, variance 1,
std 1). -/
theorem normalization_round_trip_witness :
    (([0, 2] : List ℚ) ≠ [] ∧ id (qvar [0, 2]) = (1 : ℚ) ∧
     (1 : ℚ) * 1 = qvar [0, 2] ∧ (0 : ℚ) ≤ 1) ∧
    ((save_normalization_stats [("c", ([0, 2] : List ℚ).map Val.num)] ["c"]
        id).2 = [("c", qmean [0, 2], 1)] ∧
    normalize_columns [("c", ([0, 2] : List ℚ).map Val.num)]
        [("c", qmean [0, 2], 1)] ["c"]
      = some [("c", (affineCol [0, 2] 1).map Val.num)] ∧
    qmean (affineCol [0, 2] 1) = 0 ∧
    (qvar ([0, 2] : List ℚ) = 0 → ∀ y ∈ affineCol [0, 2] 1, y = 0) ∧
    qvar (affineCol [0, 2] 1) = qvar [0, 2] / (1 + epsilon) ^ 2 ∧
    (0 : ℚ) ≤ 1 / (1 + epsilon) ∧
    ((1 : ℚ) / (1 + epsilon)) ^ 2 = qvar (affineCol [0, 2] 1) ∧
    (∀ t : ℚ, 0 < t → epsilon ≤ t * 1 →
      1 - t ≤ 1 / (1 + epsilon) ∧ (1 : ℚ) / (1 + epsilon) ≤ 1)) :=
  ⟨⟨by decide, by simp [qvar_pair], by rw [qvar_pair]; norm_num, by decide⟩,
   normalization_round_trip [0, 2] 1 id (by decide) (by simp [qvar_pair])
     (by rw [qvar_pair]; norm_num) (by decide)⟩

/-! ## Claim C8: action-word embedding lookup and the degraded mode -/

lemma createMapFrom_find_none (i : ℕ) (ws : List String) (w : String)
    (hw : w ∉ ws) :
    (createMapFrom i ws).find? (fun p => p.1 == w) = none := by
  induction ws generalizing i with
  | nil => rfl
  | cons a t ih =>
      have ha : a ≠ w := fun h => hw (h ▸ List.mem_cons_self a t)
      have hbeq : (a == w) = false := by simpa using ha
      rw [createMapFrom, List.find?_cons]
      simp only [hbeq]
      exact ih (i + 1) (fun h => hw (List.mem_cons_of_mem a h))

lemma createMapFrom_find_mem (i : ℕ) (ws : List String) (w : String)
    (hw : w ∈ ws) :
    ∃ k, (createMapFrom i ws).find? (fun p => p.1 == w) = some (w, k) ∧
      i + 2 ≤ k := by
  induction ws generalizing i with
  | nil => cases hw
  | cons a t ih =>
      by_cases haw : a = w
      · subst haw
        refine ⟨i + 2, ?_, le_refl _⟩
        rw [createMapFrom, List.find?_cons]
        simp
      · have hwt : w ∈ t := by
          rcases List.mem_cons.mp hw with h1 | h1
          · exact absurd h1.symm haw
          · exact h1
        have hbeq : (a == w) = false := by simpa using haw
        rw [createMapFrom, List.find?_cons]
        simp only [hbeq]
        rcases ih (i + 1) hwt with ⟨k, hf, hk⟩
        exact ⟨k, hf, by omega⟩

/-- C8: with the action-word model file present, `df_post_processing` gives
every row the model's embedding vector for its word and the dictionary id —
an unknown word gets the reserved UNK id 1, and a vocabulary word always gets
an id ≥ 2, clashing with neither MASK = 0 nor UNK = 1; with the model file
missing, both columns are set to the neutral scalar 0 on every row, the
warning is logged, and a table is still returned. -/
theorem word_model_post_processing (m : WordModel) (words : List String)
    (w u : String) (hw : w ∈ m.vocab) (hu : u ∉ m.vocab) :
    (df_post_processing true m words).1
      = words.map (fun x => (x, PCell.pvec (m.vec x),
          PCell.pnum (wordIdLookup (create_word_mapping m) x))) ∧
    (df_post_processing true m words).2 = [] ∧
    wordIdLookup (create_word_mapping m) u = 1 ∧
    2 ≤ wordIdLookup (create_word_mapping m) w ∧
    (df_post_processing false m words).1
      = words.map (fun x => (x, PCell.pnum 0, PCell.pnum 0)) ∧
    (df_post_processing false m words).2 = [missingModelWarning] := by
  refine ⟨rfl, rfl, ?_, ?_, rfl, rfl⟩
  · unfold wordIdLookup create_word_mapping
    rw [createMapFrom_find_none 0 m.vocab u hu]
    rfl
  · rcases createMapFrom_find_mem 0 m.vocab w hw with ⟨k, hf, hk⟩
    unfold wordIdLookup create_word_mapping
    rw [hf]
    simpa using hk

/-- Witness for C8 at a one-word vocabulary (`up` known, `zz` unknown). -/
theorem word_model_post_processing_witness :
    (("up" : String) ∈ (["up"] : List String) ∧
     ("zz" : String) ∉ (["up"] : List String)) ∧
    ((df_post_processing true ⟨["up"], fun _ => [1]⟩ ["up", "zz"]).1
      = (["up", "zz"] : List String).map (fun x =>
          (x, PCell.pvec ((fun _ : String => ([1] : List ℚ)) x),
           PCell.pnum (wordIdLookup
             (create_word_mapping ⟨["up"], fun _ => [1]⟩) x))) ∧
    (df_post_processing true ⟨["up"], fun _ => [1]⟩ ["up", "zz"]).2 = [] ∧
    wordIdLookup (create_word_mapping ⟨["up"], fun _ => [1]⟩) "zz" = 1 ∧
    2 ≤ wordIdLookup (create_word_mapping ⟨["up"], fun _ => [1]⟩) "up" ∧
    (df_post_processing false ⟨["up"], fun _ => [1]⟩ ["up", "zz"]).1
      = (["up", "zz"] : List String).map (fun x =>
          (x, PCell.pnum 0, PCell.pnum 0)) ∧
    (df_post_processing false ⟨["up"], fun _ => [1]⟩ ["up", "zz"]).2
      = [missingModelWarning]) :=
  ⟨⟨by decide, by decide⟩,
   word_model_post_processing ⟨["up"], fun _ => [1]⟩ ["up", "zz"] "up" "zz"
     (by decide) (by decide)⟩

end DeepSaber
